import Mathlib

/-
  Shallow embedding of the SFTP+ connection-lifecycle core
  (ConnectionManager, DriveUtils, CredentialManager) and proofs about it.

  The definitions mirror the TypeScript source:
  - src/providers/file.browser.provider.ts (ConnectionManager, CredentialManager)
  - src/utils/drive.utils.ts (DriveUtils)
  - src/commands/index.ts (data model: ConnectionConfig, Connection, enums)

  Asynchronous effects (event firings, process spawn/kill, vault writes,
  backend-file writes) are modelled as an explicit effect trace; JavaScript
  truthiness of optional strings / numbers is modelled explicitly.
-/

set_option maxHeartbeats 1000000

namespace SftpPlus

/-- Connection status enum (`ConnectionStatus` in src/commands/index.ts). -/
inductive ConnectionStatus where
  | Disconnected
  | Connecting
  | Connected
  | Disconnecting
  | Error
  deriving DecidableEq, Repr

/-- Storage scope for a connection configuration (`ConnectionScope`). -/
inductive ConnectionScope where
  | workspace
  | global
  deriving DecidableEq, Repr

/-- Password storage source (`PasswordSource`). -/
inductive PasswordSource where
  | secret
  | workspace
  | none
  deriving DecidableEq, Repr

/-- Connection configuration (`ConnectionConfig` in src/commands/index.ts).
Optional fields are `Option`; `password` is the optional plaintext password a
user may embed in the workspace JSON file. -/
structure ConnectionConfig where
  name : String
  host : String
  port : Nat
  protocol : String
  username : String
  remotePath : String
  driveLetter : Option String := Option.none
  explicitTls : Bool := true
  ignoreCertErrors : Bool := false
  autoConnect : Bool := false
  cacheMode : String := "full"
  idleTimeout : String := "5m"
  syncRate : Nat := 60
  password : Option String := Option.none
  deriving DecidableEq, Repr

/-- Runtime connection state (`Connection` in src/commands/index.ts, plus the
`healthCheckFailCount` field the ConnectionManager stores on it). -/
structure Connection where
  config : ConnectionConfig
  status : ConnectionStatus
  scope : ConnectionScope
  passwordSource : PasswordSource
  mountedDrive : Option String := Option.none
  processId : Option Nat := Option.none
  rcPort : Option Nat := Option.none
  error : Option String := Option.none
  healthCheckFailCount : Option Nat := Option.none
  obscuredPassword : Option String := Option.none
  deriving DecidableEq, Repr

/-- JavaScript truthiness of an optional string: `undefined` and `""` are falsy. -/
def jsTruthyStr (s : Option String) : Bool :=
  match s with
  | Option.none => false
  | Option.some v => v ≠ ""

/-- JavaScript truthiness of an optional number: `undefined` and `0` are falsy. -/
def jsTruthyNat (n : Option Nat) : Bool :=
  n.getD 0 ≠ 0

/-- The fixed drive-letter pool of `DriveUtils.DRIVE_LETTERS`:
the string `ZYXWVUTSRQPONMLKJIHGFEDC` split into characters. -/
def DRIVE_LETTERS : List Char := "ZYXWVUTSRQPONMLKJIHGFEDC".toList

/-- The probe path `X:\` used by `DriveUtils.driveExists` for a letter. -/
def drivePathOf (letter : Char) : String := letter.toString ++ ":\\"

/-- `DriveUtils.findAvailableDrive`: scan `DRIVE_LETTERS` in order and return
the first letter whose drive path does not exist on the host.  The host's view
is the oracle `driveExists`. -/
def findAvailableDrive (driveExists : String → Bool) : Option String :=
  (DRIVE_LETTERS.find? (fun letter => !driveExists (drivePathOf letter))).map Char.toString

/-- The drive-letter selection in `ConnectionManager.connect`:
`connection.config.driveLetter || await DriveUtils.findAvailableDrive()`.
A truthy pinned letter is used as-is; only otherwise is the pool scanned. -/
def allocateDrive (cfgLetter : Option String) (driveExists : String → Bool) : Option String :=
  if jsTruthyStr cfgLetter then cfgLetter else findAvailableDrive driveExists

/-- Observable side effects of ConnectionManager operations, in order.
`fired` carries the connection state at the moment
`_onDidChangeConnections.fire()` runs. -/
inductive Effect where
  | fired (snapshot : Connection)
  | prompted (name : String)
  | storedVaultPassword (name : String) (pw : String)
  | deletedVaultPassword (name : String)
  | spawnedMount (pid : Nat) (rcPort : Nat)
  | unmountCalled (pid : Nat)
  | closedEditors (drive : String)
  | savedWorkspaceFile (cfgs : List ConnectionConfig)
  | savedGlobalSettings (cfgs : List ConnectionConfig)
  deriving DecidableEq, Repr

/-- Whether an effect is a call to `rcloneService.unmount` (process kill). -/
def Effect.isUnmount : Effect → Bool
  | Effect.unmountCalled _ => true
  | _ => false

/-- Whether an effect writes the workspace JSON config file. -/
def Effect.isWorkspaceWrite : Effect → Bool
  | Effect.savedWorkspaceFile _ => true
  | _ => false

/-- Environment a single `connect(name)` call runs against: the password the
workspace JSON file holds for this name, the CredentialVault (SecretStorage)
entry, the result of the user prompt, rclone obscuring, the host drive table,
and the spawned mount process data. `mountReady` is whether the mount point
appears within the `waitForMount` timeout. -/
structure ConnectEnv where
  filePassword : Option String
  vaultPassword : Option String
  promptResult : Option String
  obscure : String → String
  driveExists : String → Bool
  spawnPid : Nat
  spawnRcPort : Nat
  mountReady : Bool

/-- `ConnectionManager.getPassword`: for a workspace-scoped connection a truthy
password in the workspace JSON file wins; otherwise fall back to SecretStorage. -/
def getPasswordFor (scope : ConnectionScope) (env : ConnectEnv) : Option String :=
  if scope = ConnectionScope.workspace ∧ jsTruthyStr env.filePassword then
    env.filePassword
  else
    env.vaultPassword

/-- The tail of `ConnectionManager.connect` once a password is in hand:
obscure the password, pick a drive letter (pinned letter used as-is, otherwise
`findAvailableDrive`), spawn the rclone mount, and wait for the mount point.
Failures are caught and stored on the connection as status `Error`. -/
def connectProceed (c : Connection) (pw : String) (effs : List Effect) (env : ConnectEnv) :
    Connection × List Effect :=
  let obscured := env.obscure pw
  match allocateDrive c.config.driveLetter env.driveExists with
  | Option.none =>
      let cErr := { c with
        status := ConnectionStatus.Error,
        error := Option.some "No available drive letters" }
      (cErr, effs ++ [Effect.fired cErr])
  | Option.some letter =>
      let effs2 := effs ++ [Effect.spawnedMount env.spawnPid env.spawnRcPort]
      if env.mountReady then
        let cOk := { c with
          status := ConnectionStatus.Connected,
          mountedDrive := Option.some letter,
          processId := Option.some env.spawnPid,
          rcPort := Option.some env.spawnRcPort,
          obscuredPassword := Option.some obscured }
        (cOk, effs2 ++ [Effect.fired cOk])
      else
        let cErr := { c with
          status := ConnectionStatus.Error,
          error := Option.some "Mount timed out" }
        (cErr, effs2 ++ [Effect.fired cErr])

/-- `ConnectionManager.connect` on one connection: no-op when already
`Connected`; otherwise transition to `Connecting`, clear the error, fire,
resolve the password (workspace file, then vault, then prompt — a prompted
password is persisted to the vault and `passwordSource` becomes `secret`),
then proceed to mount.  A missing password becomes status `Error` with
message "Password is required". -/
def connect (conn : Connection) (env : ConnectEnv) : Connection × List Effect :=
  if conn.status = ConnectionStatus.Connected then
    (conn, [])
  else
    let c1 : Connection := { conn with
      status := ConnectionStatus.Connecting,
      error := Option.none }
    let effs1 : List Effect := [Effect.fired c1]
    let pw0 := getPasswordFor c1.scope env
    if jsTruthyStr pw0 then
      connectProceed c1 (pw0.getD "") effs1 env
    else
      let effsP := effs1 ++ [Effect.prompted conn.config.name]
      if jsTruthyStr env.promptResult then
        let p := env.promptResult.getD ""
        let c2 : Connection := { c1 with passwordSource := PasswordSource.secret }
        connectProceed c2 p
          (effsP ++ [Effect.storedVaultPassword conn.config.name p]) env
      else
        let cErr := { c1 with
          status := ConnectionStatus.Error,
          error := Option.some "Password is required" }
        (cErr, effsP ++ [Effect.fired cErr])

/-- `ConnectionManager.disconnect` on one connection: no-op unless `Connected`;
otherwise transition to `Disconnecting`, fire, close editors on the mounted
drive, call `rcloneService.unmount` on a truthy process id (`unmountError`
models a throw from unmount), then either transition to `Disconnected`
clearing `mountedDrive` and `processId`, or to `Error` with the thrown
message; fire again at the end. -/
def disconnect (conn : Connection) (unmountError : Option String) : Connection × List Effect :=
  if conn.status ≠ ConnectionStatus.Connected then
    (conn, [])
  else
    let c1 : Connection := { conn with status := ConnectionStatus.Disconnecting }
    let effs1 : List Effect := [Effect.fired c1]
    let effs2 :=
      if jsTruthyStr conn.mountedDrive then
        effs1 ++ [Effect.closedEditors (conn.mountedDrive.getD "")]
      else effs1
    if jsTruthyNat conn.processId then
      let effs3 := effs2 ++ [Effect.unmountCalled (conn.processId.getD 0)]
      match unmountError with
      | Option.none =>
          let c2 := { c1 with
            status := ConnectionStatus.Disconnected,
            mountedDrive := Option.none, processId := Option.none }
          (c2, effs3 ++ [Effect.fired c2])
      | Option.some msg =>
          let c2 := { c1 with
            status := ConnectionStatus.Error,
            error := Option.some msg }
          (c2, effs3 ++ [Effect.fired c2])
    else
      let c2 := { c1 with
        status := ConnectionStatus.Disconnected,
        mountedDrive := Option.none, processId := Option.none }
      (c2, effs2 ++ [Effect.fired c2])

/-- `ConnectionManager.HEALTH_CHECK_MAX_FAILURES`. -/
def HEALTH_CHECK_MAX_FAILURES : Nat := 3

/-- One probe outcome applied to one connection: the loop body of
`ConnectionManager.checkConnectionsHealth`.  On failure the consecutive
counter is incremented; reaching the threshold forces `Disconnected`, clears
`mountedDrive`/`processId`/`rcPort`, sets error "Connection lost", and resets
the counter.  On success a positive counter is reset to 0. -/
def healthProbeStep (conn : Connection) (isAlive : Bool) : Connection :=
  if !isAlive then
    let fc := conn.healthCheckFailCount.getD 0 + 1
    if fc ≥ HEALTH_CHECK_MAX_FAILURES then
      { conn with
        status := ConnectionStatus.Disconnected,
        mountedDrive := Option.none, processId := Option.none,
        rcPort := Option.none,
        error := Option.some "Connection lost",
        healthCheckFailCount := Option.some 0 }
    else
      { conn with healthCheckFailCount := Option.some fc }
  else
    if conn.healthCheckFailCount.getD 0 > 0 then
      { conn with healthCheckFailCount := Option.some 0 }
    else conn

/-- One health-check tick for one connection: only `Connected` connections are
probed (`getActiveConnections` filter), and a connection without a truthy
`rcPort` is skipped (`if (!connection.rcPort) continue`). -/
def healthTickConn (conn : Connection) (probe : Nat → Bool) : Connection :=
  if conn.status = ConnectionStatus.Connected then
    if jsTruthyNat conn.rcPort then
      healthProbeStep conn (probe (conn.rcPort.getD 0))
    else conn
  else conn

/-- Iterated failing health ticks (every probe returns dead). -/
def failTicks : Nat → Connection → Connection
  | 0, conn => conn
  | Nat.succ k, conn => failTicks k (healthTickConn conn (fun _ => false))

/-- `Map.get` on an insertion-ordered association list. -/
def alistGet {α : Type} : List (String × α) → String → Option α
  | [], _ => Option.none
  | p :: ts, k => if p.1 = k then Option.some p.2 else alistGet ts k

/-- `Map.has` on an insertion-ordered association list. -/
def alistHas {α : Type} : List (String × α) → String → Bool
  | [], _ => false
  | p :: ts, k => p.1 = k || alistHas ts k

/-- `Map.set` on an insertion-ordered association list with unique keys:
replace the entry in place when the key is present, else append. -/
def alistSet {α : Type} : List (String × α) → String → α → List (String × α)
  | [], k, v => [(k, v)]
  | p :: ts, k, v => if p.1 = k then (k, v) :: ts else p :: alistSet ts k v

/-- The in-memory connection table `Map<string, Connection>`, as an
insertion-ordered association list with unique keys. -/
abbrev ConnTable := List (String × Connection)

/-- `Map.has` on the connection table. -/
def mapHas (t : ConnTable) (k : String) : Bool := alistHas t k

/-- `Map.get` on the connection table. -/
def mapGet (t : ConnTable) (k : String) : Option Connection := alistGet t k

/-- `Map.set` on the connection table. -/
def mapSet (t : ConnTable) (k : String) (v : Connection) : ConnTable := alistSet t k v

/-- The `connectedStates` snapshot taken at the top of
`loadConnectionConfigs`: for each `Connected` entry, its name with its
`mountedDrive` and `processId`. -/
def connectedStates (t : ConnTable) : List (String × (Option String × Option Nat)) :=
  t.filterMap (fun p =>
    if p.2.status = ConnectionStatus.Connected then
      Option.some (p.1, (p.2.mountedDrive, p.2.processId))
    else Option.none)

/-- Lookup in the `connectedStates` snapshot (`Map.get`). -/
def statesGet (states : List (String × (Option String × Option Nat))) (k : String) :
    Option (Option String × Option Nat) :=
  alistGet states k

/-- Build the fresh `Connection` record `loadConnectionConfigs` creates for a
config, then restore `Connected` status with its saved `mountedDrive` and
`processId` when the snapshot has an entry for the name.  All other runtime
fields start out absent. -/
def mkLoadedConn (cfg : ConnectionConfig) (scope : ConnectionScope)
    (psrc : PasswordSource)
    (states : List (String × (Option String × Option Nat))) : Connection :=
  let base : Connection :=
    { config := cfg, status := ConnectionStatus.Disconnected,
      scope := scope, passwordSource := psrc }
  match statesGet states cfg.name with
  | Option.some st =>
      { base with
        status := ConnectionStatus.Connected,
        mountedDrive := st.1, processId := st.2 }
  | Option.none => base

/-- Names that the workspace JSON file holds a truthy password for
(the `passwordsInFile` map built by `loadWorkspaceConfigs`). -/
def wNamesWithPassword (wcfgs : List ConnectionConfig) : List String :=
  (wcfgs.filter (fun c => jsTruthyStr c.password)).map ConnectionConfig.name

/-- The connection `loadConnectionConfigs` builds for a workspace config:
passwordSource `workspace` exactly when the file holds a password for the
name, connected state restored from the snapshot of `old`. -/
def wMk (old : ConnTable) (wcfgs : List ConnectionConfig) (cfg : ConnectionConfig) :
    Connection :=
  mkLoadedConn cfg ConnectionScope.workspace
    (if cfg.name ∈ wNamesWithPassword wcfgs then PasswordSource.workspace
     else PasswordSource.none)
    (connectedStates old)

/-- The connection `loadConnectionConfigs` builds for a global config. -/
def gMk (old : ConnTable) (cfg : ConnectionConfig) : Connection :=
  mkLoadedConn cfg ConnectionScope.global PasswordSource.none (connectedStates old)

/-- `ConnectionManager.loadConnectionConfigs`: snapshot connected state, clear
the table, insert workspace configs first (passwordSource `workspace` when the
file holds a password for the name), then insert each global config only if no
entry with that name exists yet. -/
def loadConnectionConfigs (old : ConnTable) (wcfgs gcfgs : List ConnectionConfig) : ConnTable :=
  gcfgs.foldl (fun t cfg =>
    if alistHas t cfg.name then t
    else alistSet t cfg.name (gMk old cfg))
    (wcfgs.foldl (fun t cfg => alistSet t cfg.name (wMk old wcfgs cfg)) [])

/-- `getActiveConnections` restricted to names: the names of the `Connected`
entries, in table order. -/
def getActiveNames (t : ConnTable) : List String :=
  (t.filter (fun p => p.2.status == ConnectionStatus.Connected)).map Prod.fst

/-- One iteration of the `disconnectAll` loop: `disconnect(name)` throws when
the name is no longer in the table (which aborts the whole loop), otherwise
replaces the entry by its disconnected version. -/
def disconnectAllStep (errs : String → Option String) (t : ConnTable) (n : String) :
    Except String ConnTable :=
  match mapGet t n with
  | Option.none => Except.error n
  | Option.some c => Except.ok (mapSet t n (disconnect c (errs n)).1)

/-- `ConnectionManager.disconnectAll`: capture the currently `Connected`
entries, then disconnect them one after the other.  `errs n` models an
unmount throw while disconnecting `n`. -/
def disconnectAll (t : ConnTable) (errs : String → Option String) :
    Except String ConnTable :=
  (getActiveNames t).foldlM (disconnectAllStep errs) t

/-- The two persistence backends: the workspace JSON file
(`.vscode/sftp_plus.json` connections array) and the global settings array. -/
structure Stores where
  workspaceFile : List ConnectionConfig
  globalSettings : List ConnectionConfig
  deriving DecidableEq, Repr

/-- Whether a backend array holds a config with the given name. -/
def storeHas (cfgs : List ConnectionConfig) (name : String) : Bool :=
  cfgs.any (fun c => c.name == name)

/-- Drop the `password` field before persisting, as `addConnection` and
`updateConnection` do. -/
def stripPassword (cfg : ConnectionConfig) : ConnectionConfig :=
  { cfg with password := Option.none }

/-- Filter a backend array down to configs with a different name
(the `filter(c => c.name !== oldName)` removal). -/
def removeFromStore (cfgs : List ConnectionConfig) (name : String) : List ConnectionConfig :=
  cfgs.filter (fun c => !(c.name == name))

/-- The `findIndex` / assign-or-push save in `updateConnection`: replace the
first config with the old name, or append when none matches. -/
def replaceFirstOrAppend : List ConnectionConfig → String → ConnectionConfig →
    List ConnectionConfig
  | [], _, cfg => [cfg]
  | c :: rest, oldName, cfg =>
      if c.name == oldName then cfg :: rest
      else c :: replaceFirstOrAppend rest oldName cfg

/-- The sequence of backend-store states `ConnectionManager.updateConnection`
moves through, starting with the initial state and recording the state after
each backend write.  On a scope change the removal from the old backend is
performed first, then the save to the target backend. -/
def updateConnectionStores (s : Stores) (oldName : String) (oldScope : ConnectionScope)
    (cfg : ConnectionConfig) (newScope : Option ConnectionScope) : List Stores :=
  let targetScope := newScope.getD oldScope
  let removeStates : List Stores :=
    match newScope with
    | Option.some ns =>
        if ns ≠ oldScope then
          match oldScope with
          | ConnectionScope.workspace =>
              [{ s with workspaceFile := removeFromStore s.workspaceFile oldName }]
          | ConnectionScope.global =>
              [{ s with globalSettings := removeFromStore s.globalSettings oldName }]
        else []
    | Option.none => []
  let s1 := removeStates.getLastD s
  let s2 :=
    match targetScope with
    | ConnectionScope.workspace =>
        { s1 with workspaceFile := replaceFirstOrAppend s1.workspaceFile oldName (stripPassword cfg) }
    | ConnectionScope.global =>
        { s1 with globalSettings := replaceFirstOrAppend s1.globalSettings oldName (stripPassword cfg) }
  s :: removeStates ++ [s2]

/-- `ConnectionManager.updatePasswordSource`: a workspace-scoped connection
whose name has a password in the workspace JSON file resolves to source
`workspace` before the vault is consulted; otherwise a truthy SecretStorage
entry gives `secret`, else `none`. -/
def updatePasswordSource (conn : Connection) (fileHasPassword : Bool)
    (vaultPassword : Option String) : Connection :=
  if conn.scope = ConnectionScope.workspace ∧ fileHasPassword then
    { conn with passwordSource := PasswordSource.workspace }
  else if jsTruthyStr vaultPassword then
    { conn with passwordSource := PasswordSource.secret }
  else
    { conn with passwordSource := PasswordSource.none }

/-- Whether a `disconnectAll` run completed without an aborting throw. -/
def exceptOk : Except String ConnTable → Bool
  | Except.ok _ => true
  | Except.error _ => false

/-- The entry a name maps to after a completed `disconnectAll` run
(`none` when the run aborted or the name is absent). -/
def disconnectAllGet (t : ConnTable) (errs : String → Option String) (n : String) :
    Option Connection :=
  match disconnectAll t errs with
  | Except.ok t2 => mapGet t2 n
  | Except.error _ => Option.none

/-- Whether the backend owned by a scope holds a config with the given name. -/
def backendHas (s : Stores) (sc : ConnectionScope) (name : String) : Bool :=
  match sc with
  | ConnectionScope.workspace => storeHas s.workspaceFile name
  | ConnectionScope.global => storeHas s.globalSettings name

/-- `backendHas` at position `i` of a store-state trace. -/
def backendHasAt (tr : List Stores) (i : Nat) (sc : ConnectionScope) (name : String) :
    Option Bool :=
  (tr.get? i).map (fun st => backendHas st sc name)

/-- Sample configuration used by concrete witnesses and counterexamples. -/
def cfgA : ConnectionConfig :=
  { name := "A", host := "example.com", port := 21, protocol := "ftps",
    username := "u", remotePath := "/" }

/-- Sample configuration pinning drive letter Z. -/
def cfgPinZ : ConnectionConfig := { cfgA with driveLetter := Option.some "Z" }

/-- Sample disconnected connection pinning drive letter Z. -/
def connPinZ : Connection :=
  { config := cfgPinZ, status := ConnectionStatus.Disconnected,
    scope := ConnectionScope.global, passwordSource := PasswordSource.secret }

/-- Sample disconnected connection. -/
def connDiscA : Connection :=
  { config := cfgA, status := ConnectionStatus.Disconnected,
    scope := ConnectionScope.global, passwordSource := PasswordSource.secret }

/-- Sample connection with a connect attempt already in flight. -/
def connConnectingA : Connection :=
  { config := cfgA, status := ConnectionStatus.Connecting,
    scope := ConnectionScope.global, passwordSource := PasswordSource.secret }

/-- Sample connected connection with live runtime fields. -/
def connLiveA : Connection :=
  { config := cfgA, status := ConnectionStatus.Connected,
    scope := ConnectionScope.workspace, passwordSource := PasswordSource.secret,
    mountedDrive := Option.some "Z", processId := Option.some 42,
    rcPort := Option.some 5597 }

/-- Sample environment: vault password available, mount times out. -/
def envTimeout : ConnectEnv :=
  { filePassword := Option.none, vaultPassword := Option.some "pw",
    promptResult := Option.none, obscure := fun s => s,
    driveExists := fun _ => false, spawnPid := 7, spawnRcPort := 5597,
    mountReady := false }

/-- Sample environment: vault password available, mount succeeds. -/
def envOk : ConnectEnv := { envTimeout with mountReady := true, spawnPid := 101 }

/-- Sample environment: every drive letter already exists on the host. -/
def envAllBusy : ConnectEnv := { envOk with driveExists := fun _ => true }

/-- Sample store state: config A lives in the workspace backend only. -/
def storesW : Stores := { workspaceFile := [cfgA], globalSettings := [] }

/-- Sample table holding one in-flight connection. -/
def tConnecting : ConnTable := [("A", connConnectingA)]

/-- Sample global-backend configuration sharing name A. -/
def cfgAGlobal : ConnectionConfig :=
  { cfgA with host := "global.example.com" }

/-- Second sample configuration. -/
def cfgB : ConnectionConfig :=
  { name := "B", host := "other.example.com", port := 22, protocol := "sftp",
    username := "u2", remotePath := "/srv" }

/-- Second sample connected connection. -/
def connLiveB : Connection :=
  { config := cfgB, status := ConnectionStatus.Connected,
    scope := ConnectionScope.global, passwordSource := PasswordSource.secret,
    mountedDrive := Option.some "Y", processId := Option.some 43,
    rcPort := Option.some 5596 }

/-- Sample table with two connected entries. -/
def tTwo : ConnTable := [("A", connLiveA), ("B", connLiveB)]

/-- Sample table with one connected entry. -/
def tLive : ConnTable := [("A", connLiveA)]

/-- Sample unmount-failure oracle: unmounting B throws. -/
def errB : String → Option String :=
  fun n => if n = "B" then Option.some "boom" else Option.none

/-- Sample environment with a password embedded in the workspace JSON file. -/
def envFileP : ConnectEnv :=
  { envOk with filePassword := Option.some "x", vaultPassword := Option.some "vaultpw" }

/-- Sample environment where only the user prompt can produce a password. -/
def envPrompt : ConnectEnv :=
  { envOk with vaultPassword := Option.none, promptResult := Option.some "typed" }

/-- Sample workspace-scoped disconnected connection. -/
def connWsDisc : Connection :=
  { config := cfgA, status := ConnectionStatus.Disconnected,
    scope := ConnectionScope.workspace, passwordSource := PasswordSource.none }

/-- Helper: setting a key makes lookup of that key return the new value. -/
theorem alistGet_set_self {α : Type} (t : List (String × α)) (k : String) (v : α) :
    alistGet (alistSet t k v) k = Option.some v := by
  induction t with
  | nil => simp [alistSet, alistGet]
  | cons p ts ih =>
      by_cases h : p.1 = k
      · simp [alistSet, alistGet, h]
      · simp [alistSet, alistGet, h, ih]

/-- Helper: setting one key leaves lookups of other keys unchanged. -/
theorem alistGet_set_ne {α : Type} (t : List (String × α)) (k m : String) (v : α)
    (h : m ≠ k) :
    alistGet (alistSet t k v) m = alistGet t m := by
  have hk : ¬(k = m) := fun hh => h hh.symm
  induction t with
  | nil => simp [alistSet, alistGet, hk]
  | cons p ts ih =>
      by_cases hp : p.1 = k
      · simp [alistSet, alistGet, hp, hk]
      · simp [alistSet, alistGet, hp, ih]

/-- Helper: key presence is membership in the key list. -/
theorem alistHas_iff_mem {α : Type} (t : List (String × α)) (k : String) :
    alistHas t k = true ↔ k ∈ t.map Prod.fst := by
  induction t with
  | nil => simp [alistHas]
  | cons p ts ih =>
      simp only [alistHas, Bool.or_eq_true, decide_eq_true_eq, ih, List.map_cons,
        List.mem_cons]
      constructor
      · rintro (h | h)
        · exact Or.inl h.symm
        · exact Or.inr h
      · rintro (h | h)
        · exact Or.inl h.symm
        · exact Or.inr h

/-- Helper: a lookup succeeds exactly when the key is present. -/
theorem alistGet_isSome_eq_has {α : Type} (t : List (String × α)) (k : String) :
    (alistGet t k).isSome = alistHas t k := by
  induction t with
  | nil => simp [alistGet, alistHas]
  | cons p ts ih => by_cases hp : p.1 = k <;> simp [alistGet, alistHas, hp, ih]

/-- Helper: a lookup returns `none` exactly when the key is absent. -/
theorem alistGet_eq_none_iff {α : Type} (t : List (String × α)) (k : String) :
    alistGet t k = Option.none ↔ alistHas t k = false := by
  rw [← alistGet_isSome_eq_has]
  cases alistGet t k <;> simp

/-- Helper: the key list after a set. -/
theorem alistKeys_set {α : Type} (t : List (String × α)) (k : String) (v : α) :
    (alistSet t k v).map Prod.fst =
      if alistHas t k then t.map Prod.fst else t.map Prod.fst ++ [k] := by
  induction t with
  | nil => simp [alistSet, alistHas]
  | cons p ts ih =>
      by_cases hp : p.1 = k
      · simp [alistSet, alistHas, hp]
      · rw [alistSet]
        simp only [if_neg hp, List.map_cons, ih, alistHas]
        by_cases hh : alistHas ts k <;> simp [hh, hp]

/-- Helper: key presence after a set. -/
theorem alistHas_set {α : Type} (t : List (String × α)) (k m : String) (v : α) :
    alistHas (alistSet t k v) m = (alistHas t m || (m = k)) := by
  induction t with
  | nil =>
      by_cases h : m = k
      · simp [alistSet, alistHas, h]
      · have h2 : ¬(k = m) := fun hh => h hh.symm
        simp [alistSet, alistHas, h, h2]
  | cons p ts ih =>
      by_cases hp : p.1 = k
      · by_cases h : m = k
        · simp [alistSet, alistHas, hp, h]
        · have h2 : ¬(k = m) := fun hh => h hh.symm
          simp [alistSet, alistHas, hp, h, h2]
      · simp [alistSet, alistHas, hp, ih, Bool.or_assoc]

/-- Helper: a set preserves key uniqueness. -/
theorem alistNodup_set {α : Type} (t : List (String × α)) (k : String) (v : α)
    (h : (t.map Prod.fst).Nodup) : ((alistSet t k v).map Prod.fst).Nodup := by
  rw [alistKeys_set]
  by_cases hh : alistHas t k
  · simpa [hh] using h
  · have hk : k ∉ t.map Prod.fst := fun hm => by
      rw [← alistHas_iff_mem] at hm
      exact absurd hm (by simp [hh])
    simp [hh, List.nodup_append, h, hk]

/-- Helper: with unique keys, a successful lookup is entry membership. -/
theorem alistGet_eq_some_iff_mem {α : Type} :
    ∀ (t : List (String × α)) (k : String) (v : α),
      (t.map Prod.fst).Nodup →
      (alistGet t k = Option.some v ↔ (k, v) ∈ t) := by
  intro t
  induction t with
  | nil => intro k v _; simp [alistGet]
  | cons p ts ih =>
      obtain ⟨a, b⟩ := p
      intro k v hnd
      simp only [List.map_cons, List.nodup_cons] at hnd
      obtain ⟨hk, hnd2⟩ := hnd
      by_cases hp : a = k
      · subst hp
        rw [alistGet, if_pos rfl]
        constructor
        · intro hv
          obtain rfl : b = v := by simpa using hv
          exact List.mem_cons_self _ _
        · intro hmem
          rcases List.mem_cons.mp hmem with heq | hmem2
          · have h2 : v = b := (Prod.ext_iff.mp heq).2
            rw [h2]
          · exact absurd (List.mem_map_of_mem Prod.fst hmem2) hk
      · rw [alistGet, if_neg hp, ih k v hnd2]
        simp only [List.mem_cons, Prod.mk.injEq]
        constructor
        · exact Or.inr
        · rintro (⟨h1, _⟩ | h2)
          · exact absurd h1.symm hp
          · exact h2

/-- Helper: with unique keys a present key appears in exactly one entry. -/
theorem alist_filter_key_length {α : Type} :
    ∀ (t : List (String × α)) (k : String),
      (t.map Prod.fst).Nodup → alistHas t k = true →
      (t.filter (fun p => p.1 == k)).length = 1 := by
  intro t
  induction t with
  | nil => intro k _ h; simp [alistHas] at h
  | cons p ts ih =>
      obtain ⟨a, b⟩ := p
      intro k hnd hhas
      simp only [List.map_cons, List.nodup_cons] at hnd
      obtain ⟨hk, hnd2⟩ := hnd
      by_cases hp : a = k
      · subst hp
        have hnone : ts.filter (fun p => p.1 == a) = [] := by
          rw [List.filter_eq_nil_iff]
          intro q hq
          simp only [beq_iff_eq]
          intro hqa
          exact hk (hqa ▸ List.mem_map_of_mem Prod.fst hq)
        simp [List.filter_cons, hnone]
      · have hhas2 : alistHas ts k = true := by
          rw [alistHas] at hhas
          simpa [hp] using hhas
        simpa [List.filter_cons, hp] using ih k hnd2 hhas2

/-- Helper: a name not named by any folded config keeps its lookup. -/
theorem wfold_get_of_not_mem (mk : ConnectionConfig → Connection) :
    ∀ (cfgs : List ConnectionConfig) (acc : ConnTable) (n : String),
      n ∉ cfgs.map ConnectionConfig.name →
      alistGet (cfgs.foldl (fun t cfg => alistSet t cfg.name (mk cfg)) acc) n
        = alistGet acc n := by
  intro cfgs
  induction cfgs with
  | nil => intro acc n _; rfl
  | cons c rest ih =>
      intro acc n hn
      simp only [List.map_cons, List.mem_cons, not_or] at hn
      rw [List.foldl_cons, ih _ n hn.2, alistGet_set_ne _ _ _ _ hn.1]

/-- Helper: after folding workspace-style inserts, a present name maps to the
built connection of one of the configs carrying that name. -/
theorem wfold_get_of_mem (mk : ConnectionConfig → Connection) :
    ∀ (cfgs : List ConnectionConfig) (acc : ConnTable) (n : String),
      n ∈ cfgs.map ConnectionConfig.name →
      ∃ cfg, cfg ∈ cfgs ∧ cfg.name = n ∧
        alistGet (cfgs.foldl (fun t cfg => alistSet t cfg.name (mk cfg)) acc) n
          = Option.some (mk cfg) := by
  intro cfgs
  induction cfgs with
  | nil => intro acc n h; simp at h
  | cons c rest ih =>
      intro acc n hn
      by_cases hr : n ∈ rest.map ConnectionConfig.name
      · obtain ⟨cfg, h1, h2, h3⟩ := ih (alistSet acc c.name (mk c)) n hr
        exact ⟨cfg, List.mem_cons_of_mem _ h1, h2, by simpa using h3⟩
      · have hcn : c.name = n := by
          simp only [List.map_cons, List.mem_cons] at hn
          rcases hn with h | h
          · exact h.symm
          · exact absurd h hr
        refine ⟨c, List.mem_cons_self _ _, hcn, ?_⟩
        rw [List.foldl_cons, wfold_get_of_not_mem mk rest _ n hr, ← hcn, alistGet_set_self]

/-- Helper: workspace-style insert folding preserves key uniqueness. -/
theorem wfold_nodup (mk : ConnectionConfig → Connection) :
    ∀ (cfgs : List ConnectionConfig) (acc : ConnTable),
      ((acc.map Prod.fst).Nodup) →
      (((cfgs.foldl (fun t cfg => alistSet t cfg.name (mk cfg)) acc)).map Prod.fst).Nodup := by
  intro cfgs
  induction cfgs with
  | nil => intro acc h; exact h
  | cons c rest ih => intro acc h; exact ih _ (alistNodup_set _ _ _ h)

/-- Helper: the global skip-if-present fold never changes a present entry. -/
theorem gfold_get_of_has (mkg : ConnectionConfig → Connection) :
    ∀ (cfgs : List ConnectionConfig) (acc : ConnTable) (n : String),
      alistHas acc n = true →
      alistGet (cfgs.foldl (fun t cfg => if alistHas t cfg.name then t
        else alistSet t cfg.name (mkg cfg)) acc) n = alistGet acc n := by
  intro cfgs
  induction cfgs with
  | nil => intro acc n _; rfl
  | cons c rest ih =>
      intro acc n hn
      rw [List.foldl_cons]
      by_cases hc : alistHas acc c.name
      · simp only [hc, if_true]
        exact ih acc n hn
      · simp only [hc, Bool.false_eq_true, if_false]
        have hne : n ≠ c.name := fun h => by rw [h] at hn; exact absurd hn (by simp [hc])
        rw [ih _ n (by rw [alistHas_set]; simp [hn]), alistGet_set_ne _ _ _ _ hne]

/-- Helper: the global fold inserts a fresh name from the first config
carrying it. -/
theorem gfold_get_of_new (mkg : ConnectionConfig → Connection) :
    ∀ (cfgs : List ConnectionConfig) (acc : ConnTable) (n : String),
      alistHas acc n = false →
      n ∈ cfgs.map ConnectionConfig.name →
      ∃ cfg, cfg ∈ cfgs ∧ cfg.name = n ∧
        alistGet (cfgs.foldl (fun t cfg => if alistHas t cfg.name then t
          else alistSet t cfg.name (mkg cfg)) acc) n = Option.some (mkg cfg) := by
  intro cfgs
  induction cfgs with
  | nil => intro acc n _ h; simp at h
  | cons c rest ih =>
      intro acc n hacc hn
      rw [List.foldl_cons]
      by_cases hcn : c.name = n
      · subst hcn
        simp only [hacc, Bool.false_eq_true, if_false]
        refine ⟨c, List.mem_cons_self _ _, rfl, ?_⟩
        rw [gfold_get_of_has mkg rest _ c.name (by rw [alistHas_set]; simp),
          alistGet_set_self]
      · have hn2 : n ∈ rest.map ConnectionConfig.name := by
          simp only [List.map_cons, List.mem_cons] at hn
          rcases hn with h | h
          · exact absurd h.symm hcn
          · exact h
        by_cases hc : alistHas acc c.name
        · simp only [hc, if_true]
          obtain ⟨cfg, h1, h2, h3⟩ := ih acc n hacc hn2
          exact ⟨cfg, List.mem_cons_of_mem _ h1, h2, h3⟩
        · simp only [hc, Bool.false_eq_true, if_false]
          have hacc2 : alistHas (alistSet acc c.name (mkg c)) n = false := by
            rw [alistHas_set, hacc]
            simp only [Bool.false_or, decide_eq_false_iff_not]
            exact fun h => hcn h.symm
          obtain ⟨cfg, h1, h2, h3⟩ := ih _ n hacc2 hn2
          exact ⟨cfg, List.mem_cons_of_mem _ h1, h2, h3⟩

/-- Helper: the global fold preserves key uniqueness. -/
theorem gfold_nodup (mkg : ConnectionConfig → Connection) :
    ∀ (cfgs : List ConnectionConfig) (acc : ConnTable),
      ((acc.map Prod.fst).Nodup) →
      (((cfgs.foldl (fun t cfg => if alistHas t cfg.name then t
        else alistSet t cfg.name (mkg cfg)) acc)).map Prod.fst).Nodup := by
  intro cfgs
  induction cfgs with
  | nil => intro acc h; exact h
  | cons c rest ih =>
      intro acc h
      rw [List.foldl_cons]
      by_cases hc : alistHas acc c.name
      · simp only [hc, if_true]; exact ih acc h
      · simp only [hc, Bool.false_eq_true, if_false]
        exact ih _ (alistNodup_set _ _ _ h)

/-- Helper: the scope and config a loaded connection record carries. -/
theorem mkLoadedConn_fields (cfg : ConnectionConfig) (sc : ConnectionScope)
    (ps : PasswordSource) (states : List (String × (Option String × Option Nat))) :
    (mkLoadedConn cfg sc ps states).scope = sc
    ∧ (mkLoadedConn cfg sc ps states).config = cfg := by
  unfold mkLoadedConn
  cases statesGet states cfg.name <;> exact ⟨rfl, rfl⟩

/-- Helper: a snapshot hit restores connected state on the loaded record. -/
theorem mkLoadedConn_restore (cfg : ConnectionConfig) (sc : ConnectionScope)
    (ps : PasswordSource) (states : List (String × (Option String × Option Nat)))
    (st : Option String × Option Nat)
    (h : statesGet states cfg.name = Option.some st) :
    mkLoadedConn cfg sc ps states =
      { config := cfg, status := ConnectionStatus.Connected, scope := sc,
        passwordSource := ps, mountedDrive := st.1, processId := st.2 } := by
  unfold mkLoadedConn
  rw [h]

/-- Helper: the `connectedStates` snapshot keeps a connected entry's
mount/process fields under its name. -/
theorem connectedStates_get :
    ∀ (old : ConnTable) (n : String) (c : Connection),
      alistGet old n = Option.some c → c.status = ConnectionStatus.Connected →
      statesGet (connectedStates old) n = Option.some (c.mountedDrive, c.processId) := by
  intro old
  induction old with
  | nil => intro n c h _; simp [alistGet] at h
  | cons p ts ih =>
      obtain ⟨a, b⟩ := p
      intro n c hget hst
      by_cases ha : a = n
      · subst ha
        rw [alistGet, if_pos rfl] at hget
        obtain rfl : b = c := by simpa using hget
        simp [connectedStates, List.filterMap_cons, hst, statesGet, alistGet]
      · rw [alistGet, if_neg ha] at hget
        have hrec := ih n c hget hst
        by_cases hb : b.status = ConnectionStatus.Connected
        · simpa [connectedStates, List.filterMap_cons, hb, statesGet, alistGet, ha]
            using hrec
        · simpa [connectedStates, List.filterMap_cons, hb, statesGet, alistGet]
            using hrec

/-- C1 counterexample.  `updateConnection` moving config A from the workspace
backend to the global backend passes through an intermediate store state
(after the old-backend removal, before the new-backend write) in which A is
present in neither backend: the removal is issued before the add, not after
it. -/
theorem scope_move_gap_cex :
    ((updateConnectionStores storesW "A" ConnectionScope.workspace cfgA
        (Option.some ConnectionScope.global)).get? 1).map
      (fun s => (storeHas s.workspaceFile "A", storeHas s.globalSettings "A"))
      = Option.some (false, false) := by decide

/-- C3 counterexample.  `connect` on a connection whose status is already
`Connecting` is not rejected: the attempt proceeds, spawns a new mount
process, and completes to `Connected`. -/
theorem connect_connecting_proceeds_cex :
    (connect connConnectingA envOk).1.status = ConnectionStatus.Connected
    ∧ Effect.spawnedMount 101 5597 ∈ (connect connConnectingA envOk).2 := by decide

/-- C4 counterexample.  With every drive path existing on the host (pool fully
occupied), a config that pins letter Z is mounted on Z anyway: the pinned
letter is used without any freeness verification and no resource-exhausted
error is raised. -/
theorem pinned_drive_unverified_cex :
    allocateDrive (Option.some "Z") (fun _ => true) = Option.some "Z"
    ∧ (connect connPinZ envAllBusy).1.mountedDrive = Option.some "Z"
    ∧ (connect connPinZ envAllBusy).1.status = ConnectionStatus.Connected := by decide

/-- C7 counterexample.  When `waitForMount` times out, the connection ends in
status `Error` with message "Mount timed out", but the effect trace contains
the mount spawn and no `unmount` call: the spawned process is not killed. -/
theorem mount_timeout_no_kill_cex :
    (connect connDiscA envTimeout).1.status = ConnectionStatus.Error
    ∧ (connect connDiscA envTimeout).1.error = Option.some "Mount timed out"
    ∧ Effect.spawnedMount 7 5597 ∈ (connect connDiscA envTimeout).2
    ∧ (connect connDiscA envTimeout).2.all (fun e => !(Effect.isUnmount e)) = true := by
  decide

/-- C8 counterexample.  `disconnectAll` on a table whose only entry is in
status `Connecting` leaves it untouched: only `Connected` entries are
disconnected, a `Connecting` one is skipped. -/
theorem disconnect_all_skips_connecting_cex :
    (disconnectAll tConnecting (fun _ => Option.none)).toOption = Option.some tConnecting
    ∧ (mapGet tConnecting "A").map Connection.status
        = Option.some ConnectionStatus.Connecting := by decide

/-- C9 counterexample.  A successful `disconnect` of a connected entry clears
`mountedDrive` and `processId` but leaves `rcPort` set: the control-port field
is not cleared. -/
theorem disconnect_keeps_rcport_cex :
    (disconnect connLiveA Option.none).1.status = ConnectionStatus.Disconnected
    ∧ (disconnect connLiveA Option.none).1.mountedDrive = Option.none
    ∧ (disconnect connLiveA Option.none).1.processId = Option.none
    ∧ (disconnect connLiveA Option.none).1.rcPort = Option.some 5597 := by decide

/-- C6.  For every pair of a workspace(project)-scope config and a
global-scope config sharing a name, the merged table produced by
`loadConnectionConfigs` has exactly one entry under that name, and it is a
workspace-scoped entry whose config comes from the workspace list. -/
theorem merge_project_wins (old : ConnTable) (wcfgs gcfgs : List ConnectionConfig)
    (n : String)
    (hw : n ∈ wcfgs.map ConnectionConfig.name)
    (hg : n ∈ gcfgs.map ConnectionConfig.name) :
    ((loadConnectionConfigs old wcfgs gcfgs).filter (fun p => p.1 == n)).length = 1
    ∧ ∃ conn, mapGet (loadConnectionConfigs old wcfgs gcfgs) n = Option.some conn
        ∧ conn.scope = ConnectionScope.workspace
        ∧ conn.config ∈ wcfgs ∧ conn.config.name = n := by
  obtain ⟨cfg, hmem, hname, hget⟩ := wfold_get_of_mem (wMk old wcfgs) wcfgs [] n hw
  have hhas : alistHas
      (wcfgs.foldl (fun t cfg => alistSet t cfg.name (wMk old wcfgs cfg)) []) n = true := by
    rw [← alistGet_isSome_eq_has, hget]
    rfl
  have hfin : alistGet (loadConnectionConfigs old wcfgs gcfgs) n
      = Option.some (wMk old wcfgs cfg) := by
    simp only [loadConnectionConfigs]
    rw [gfold_get_of_has (gMk old) gcfgs _ n hhas, hget]
  have hnd : ((loadConnectionConfigs old wcfgs gcfgs).map Prod.fst).Nodup := by
    simp only [loadConnectionConfigs]
    exact gfold_nodup _ _ _ (wfold_nodup _ _ _ (by simp))
  refine ⟨?_, wMk old wcfgs cfg, hfin, ?_, ?_, ?_⟩
  · apply alist_filter_key_length _ n hnd
    rw [← alistGet_isSome_eq_has, hfin]
    rfl
  · unfold wMk
    exact (mkLoadedConn_fields _ _ _ _).1
  · unfold wMk
    rw [(mkLoadedConn_fields _ _ _ _).2]
    exact hmem
  · unfold wMk
    rw [(mkLoadedConn_fields _ _ _ _).2]
    exact hname

/-- C6 witness: loading workspace list `[cfgA]` against global list
`[cfgAGlobal]` (both named A) yields exactly one A entry, workspace-scoped. -/
theorem merge_project_wins_witness :
    ((loadConnectionConfigs [] [cfgA] [cfgAGlobal]).filter (fun p => p.1 == "A")).length = 1
    ∧ (mapGet (loadConnectionConfigs [] [cfgA] [cfgAGlobal]) "A").map Connection.scope
        = Option.some ConnectionScope.workspace := by
  obtain ⟨h1, conn, h2, h3, _, _⟩ :=
    merge_project_wins [] [cfgA] [cfgAGlobal] "A" (by decide) (by decide)
  refine ⟨h1, ?_⟩
  rw [h2]
  simp [h3]

/-- Helper: a loaded record restored from the snapshot is `Connected`, carries
exactly the saved `mountedDrive`/`processId`, has every other runtime field
reset to `none`, and is skipped unchanged by a health tick. -/
theorem mkLoadedConn_runtime_reset (cfg : ConnectionConfig) (sc : ConnectionScope)
    (ps : PasswordSource) (states : List (String × (Option String × Option Nat)))
    (md : Option String) (pid : Option Nat)
    (h : statesGet states cfg.name = Option.some (md, pid)) :
    (mkLoadedConn cfg sc ps states).status = ConnectionStatus.Connected
    ∧ (mkLoadedConn cfg sc ps states).mountedDrive = md
    ∧ (mkLoadedConn cfg sc ps states).processId = pid
    ∧ (mkLoadedConn cfg sc ps states).rcPort = Option.none
    ∧ (mkLoadedConn cfg sc ps states).healthCheckFailCount = Option.none
    ∧ (mkLoadedConn cfg sc ps states).obscuredPassword = Option.none
    ∧ (mkLoadedConn cfg sc ps states).error = Option.none
    ∧ ∀ probe : Nat → Bool,
        healthTickConn (mkLoadedConn cfg sc ps states) probe = mkLoadedConn cfg sc ps states := by
  rw [mkLoadedConn_restore cfg sc ps states (md, pid) h]
  refine ⟨rfl, rfl, rfl, rfl, rfl, rfl, rfl, ?_⟩
  intro probe
  simp [healthTickConn, jsTruthyNat]

/-- C10.  A connection that is `Connected` when the configuration is reloaded
and whose name still appears in a backend keeps status `Connected` with its
previous `mountedDrive` and `processId`, but only those: `rcPort`,
`healthCheckFailCount`, `obscuredPassword` and `error` are reset to absent, so
the rebuilt entry is skipped unchanged by subsequent health-check ticks. -/
theorem reload_preserves_connected_runtime (old : ConnTable)
    (wcfgs gcfgs : List ConnectionConfig) (n : String) (c : Connection)
    (hget : mapGet old n = Option.some c)
    (hconn : c.status = ConnectionStatus.Connected)
    (hmem : n ∈ wcfgs.map ConnectionConfig.name ∨ n ∈ gcfgs.map ConnectionConfig.name) :
    ∃ conn, mapGet (loadConnectionConfigs old wcfgs gcfgs) n = Option.some conn
      ∧ conn.status = ConnectionStatus.Connected
      ∧ conn.mountedDrive = c.mountedDrive
      ∧ conn.processId = c.processId
      ∧ conn.rcPort = Option.none
      ∧ conn.healthCheckFailCount = Option.none
      ∧ conn.obscuredPassword = Option.none
      ∧ conn.error = Option.none
      ∧ (∀ probe : Nat → Bool, healthTickConn conn probe = conn) := by
  have hstates : statesGet (connectedStates old) n
      = Option.some (c.mountedDrive, c.processId) :=
    connectedStates_get old n c hget hconn
  by_cases hw : n ∈ wcfgs.map ConnectionConfig.name
  · obtain ⟨cfg, hm, hname, hg1⟩ := wfold_get_of_mem (wMk old wcfgs) wcfgs [] n hw
    have hhas : alistHas
        (wcfgs.foldl (fun t cfg => alistSet t cfg.name (wMk old wcfgs cfg)) []) n = true := by
      rw [← alistGet_isSome_eq_has, hg1]
      rfl
    have hfin : mapGet (loadConnectionConfigs old wcfgs gcfgs) n
        = Option.some (wMk old wcfgs cfg) := by
      simp only [mapGet, loadConnectionConfigs]
      rw [gfold_get_of_has (gMk old) gcfgs _ n hhas, hg1]
    refine ⟨wMk old wcfgs cfg, hfin, ?_⟩
    unfold wMk
    exact mkLoadedConn_runtime_reset cfg _ _ _ c.mountedDrive c.processId
      (by rw [hname]; exact hstates)
  · have hgmem : n ∈ gcfgs.map ConnectionConfig.name := hmem.resolve_left hw
    have hnone : alistHas
        (wcfgs.foldl (fun t cfg => alistSet t cfg.name (wMk old wcfgs cfg)) []) n = false := by
      rw [← alistGet_isSome_eq_has, wfold_get_of_not_mem (wMk old wcfgs) wcfgs [] n hw]
      rfl
    obtain ⟨cfg, hm, hname, hg1⟩ := gfold_get_of_new (gMk old) gcfgs _ n hnone hgmem
    have hfin : mapGet (loadConnectionConfigs old wcfgs gcfgs) n
        = Option.some (gMk old cfg) := by
      simp only [mapGet, loadConnectionConfigs]
      exact hg1
    refine ⟨gMk old cfg, hfin, ?_⟩
    unfold gMk
    exact mkLoadedConn_runtime_reset cfg _ _ _ c.mountedDrive c.processId
      (by rw [hname]; exact hstates)

/-- C10 witness: reloading a table whose A entry is connected, with A still in
the workspace backend, keeps it connected on drive Z with the control port
reset. -/
theorem reload_preserves_connected_runtime_witness :
    (mapGet (loadConnectionConfigs tLive [cfgA] []) "A").map Connection.status
      = Option.some ConnectionStatus.Connected
    ∧ (mapGet (loadConnectionConfigs tLive [cfgA] []) "A").map Connection.mountedDrive
      = Option.some (Option.some "Z")
    ∧ (mapGet (loadConnectionConfigs tLive [cfgA] []) "A").map Connection.rcPort
      = Option.some Option.none := by
  obtain ⟨conn, h1, h2, h3, h4, h5, _⟩ :=
    reload_preserves_connected_runtime tLive [cfgA] [] "A" connLiveA (by decide) (by decide)
      (Or.inl (by decide))
  rw [h1]
  simp [h2, h3, h5, connLiveA]

/-- Helper: folding `disconnectAllStep` over distinct present names succeeds
and disconnects exactly those names, leaving every other entry untouched. -/
theorem disconnectAll_fold_spec (errs : String → Option String) :
    ∀ (names : List String) (t : ConnTable),
      names.Nodup →
      (∀ n ∈ names, alistHas t n = true) →
      ∃ t2, names.foldlM (disconnectAllStep errs) t = Except.ok t2
        ∧ (∀ m, alistGet t2 m =
            if m ∈ names then (alistGet t m).map (fun c => (disconnect c (errs m)).1)
            else alistGet t m)
        ∧ t2.map Prod.fst = t.map Prod.fst := by
  intro names
  induction names with
  | nil =>
      intro t _ _
      exact ⟨t, rfl, by intro m; simp, rfl⟩
  | cons n rest ih =>
      intro t hnd hhas
      obtain ⟨hn, hndr⟩ := List.nodup_cons.mp hnd
      have hhn : alistHas t n = true := hhas n (List.mem_cons_self _ _)
      obtain ⟨c0, hc0⟩ : ∃ c0, alistGet t n = Option.some c0 := by
        have hs := alistGet_isSome_eq_has t n
        rw [hhn] at hs
        exact Option.isSome_iff_exists.mp hs
      have hstep : disconnectAllStep errs t n
          = Except.ok (alistSet t n (disconnect c0 (errs n)).1) := by
        simp [disconnectAllStep, mapGet, hc0, mapSet]
      have hkeys1 : (alistSet t n (disconnect c0 (errs n)).1).map Prod.fst
          = t.map Prod.fst := by
        rw [alistKeys_set]
        simp [hhn]
      have hhas1 : ∀ m ∈ rest, alistHas (alistSet t n (disconnect c0 (errs n)).1) m = true := by
        intro m hm
        rw [alistHas_set]
        simp [hhas m (List.mem_cons_of_mem _ hm)]
      obtain ⟨t2, hfold, hget2, hkeys2⟩ := ih _ hndr hhas1
      refine ⟨t2, ?_, ?_, hkeys2.trans hkeys1⟩
      · rw [List.foldlM_cons, hstep]
        simpa using hfold
      · intro m
        rcases eq_or_ne m n with rfl | hmn
        · rw [hget2 m, if_neg hn, alistGet_set_self, if_pos (List.mem_cons_self _ _), hc0]
          rfl
        · by_cases hm : m ∈ rest
          · rw [hget2 m, if_pos hm, alistGet_set_ne _ _ _ _ hmn,
              if_pos (List.mem_cons_of_mem _ hm)]
          · rw [hget2 m, if_neg hm, alistGet_set_ne _ _ _ _ hmn,
              if_neg (by simp [hmn, hm])]

/-- C8 (amended).  With unique keys, `disconnectAll` completes without an
aborting throw and disconnects exactly the entries that are `Connected` —
independently, so an unmount failure on one entry (any `errs`) does not
prevent the others — while entries in any other status, `Connecting`
included, are left untouched. -/
theorem disconnect_all_connected_only (t : ConnTable) (errs : String → Option String)
    (hnd : (t.map Prod.fst).Nodup) :
    exceptOk (disconnectAll t errs) = true
    ∧ (∀ n c, mapGet t n = Option.some c → c.status = ConnectionStatus.Connected →
        disconnectAllGet t errs n = Option.some (disconnect c (errs n)).1)
    ∧ (∀ n c, mapGet t n = Option.some c → c.status ≠ ConnectionStatus.Connected →
        disconnectAllGet t errs n = Option.some c) := by
  have hnames_nodup : (getActiveNames t).Nodup := by
    unfold getActiveNames
    exact ((List.filter_sublist t).map Prod.fst).nodup hnd
  have hnames_has : ∀ n ∈ getActiveNames t, alistHas t n = true := by
    intro n hn
    unfold getActiveNames at hn
    rw [alistHas_iff_mem]
    obtain ⟨p, hp, rfl⟩ := List.mem_map.mp hn
    exact List.mem_map_of_mem _ (List.mem_of_mem_filter hp)
  obtain ⟨t2, hfold, hget2, _⟩ :=
    disconnectAll_fold_spec errs (getActiveNames t) t hnames_nodup hnames_has
  have hda : disconnectAll t errs = Except.ok t2 := hfold
  have hmemnames : ∀ n c, mapGet t n = Option.some c →
      (n ∈ getActiveNames t ↔ c.status = ConnectionStatus.Connected) := by
    intro n c hc
    constructor
    · intro hin
      obtain ⟨p, hp, hp1⟩ := List.mem_map.mp hin
      obtain ⟨hpt, hps⟩ := List.mem_filter.mp hp
      have hcp : alistGet t n = Option.some p.2 := by
        rw [alistGet_eq_some_iff_mem t n p.2 hnd]
        rw [← hp1]
        exact hpt
      have hc2 : alistGet t n = Option.some c := hc
      rw [hc2] at hcp
      have hpc : p.2 = c := (Option.some_inj.mp hcp).symm
      rw [← hpc]
      simpa using hps
    · intro hcs
      have hmem : (n, c) ∈ t := (alistGet_eq_some_iff_mem t n c hnd).mp hc
      exact List.mem_map_of_mem Prod.fst
        (List.mem_filter.mpr ⟨hmem, by simpa using hcs⟩)
  refine ⟨by rw [hda]; rfl, ?_, ?_⟩
  · intro n c hc hcs
    have hin : n ∈ getActiveNames t := (hmemnames n c hc).mpr hcs
    unfold disconnectAllGet
    rw [hda]
    show alistGet t2 n = _
    rw [hget2 n, if_pos hin]
    simp only [mapGet] at hc
    rw [hc]
    rfl
  · intro n c hc hcs
    have hin : n ∉ getActiveNames t := fun h => hcs ((hmemnames n c hc).mp h)
    unfold disconnectAllGet
    rw [hda]
    show alistGet t2 n = _
    rw [hget2 n, if_neg hin]
    exact hc

/-- C8 witness: on a table with two connected entries where unmounting B
throws, both A and B end up processed by `disconnect` — the failure on B does
not prevent A from being disconnected. -/
theorem disconnect_all_connected_only_witness :
    exceptOk (disconnectAll tTwo errB) = true
    ∧ disconnectAllGet tTwo errB "A" = Option.some (disconnect connLiveA Option.none).1
    ∧ disconnectAllGet tTwo errB "B"
        = Option.some (disconnect connLiveB (Option.some "boom")).1 := by
  obtain ⟨h1, h2, _⟩ := disconnect_all_connected_only tTwo errB (by decide)
  refine ⟨h1, ?_, ?_⟩
  · exact h2 "A" connLiveA (by decide) (by decide)
  · exact h2 "B" connLiveB (by decide) (by decide)

/-- Helper: a failing probe below the threshold only bumps the counter. -/
theorem failTick_below (c : Connection) (hst : c.status = ConnectionStatus.Connected)
    (hport : jsTruthyNat c.rcPort = true)
    (hlt : c.healthCheckFailCount.getD 0 + 1 < HEALTH_CHECK_MAX_FAILURES) :
    healthTickConn c (fun _ => false)
      = { c with healthCheckFailCount := Option.some (c.healthCheckFailCount.getD 0 + 1) } := by
  simp [healthTickConn, healthProbeStep, hst, hport, Nat.not_le.mpr hlt]

/-- Helper: a failing probe reaching the threshold forces the disconnect. -/
theorem failTick_at_threshold (c : Connection) (hst : c.status = ConnectionStatus.Connected)
    (hport : jsTruthyNat c.rcPort = true)
    (hge : c.healthCheckFailCount.getD 0 + 1 ≥ HEALTH_CHECK_MAX_FAILURES) :
    healthTickConn c (fun _ => false)
      = { c with
          status := ConnectionStatus.Disconnected,
          mountedDrive := Option.none, processId := Option.none,
          rcPort := Option.none,
          error := Option.some "Connection lost",
          healthCheckFailCount := Option.some 0 } := by
  simp [healthTickConn, healthProbeStep, hst, hport, hge]

/-- C2.  For a `Connected` connection with a live control port and counter 0,
fewer than `HEALTH_CHECK_MAX_FAILURES` (= 3) consecutive probe failures never
force a disconnect; the third does, setting status `Disconnected`, error
"Connection lost" and clearing mount/process/port; and a single probe success
on any probed connection resets the counter to 0 without changing status. -/
theorem health_check_threshold (conn : Connection)
    (hst : conn.status = ConnectionStatus.Connected)
    (hport : jsTruthyNat conn.rcPort = true)
    (hfc : conn.healthCheckFailCount.getD 0 = 0) :
    (∀ k, k < HEALTH_CHECK_MAX_FAILURES →
        (failTicks k conn).status = ConnectionStatus.Connected)
    ∧ (failTicks HEALTH_CHECK_MAX_FAILURES conn).status = ConnectionStatus.Disconnected
    ∧ (failTicks HEALTH_CHECK_MAX_FAILURES conn).error = Option.some "Connection lost"
    ∧ (failTicks HEALTH_CHECK_MAX_FAILURES conn).mountedDrive = Option.none
    ∧ (failTicks HEALTH_CHECK_MAX_FAILURES conn).processId = Option.none
    ∧ (failTicks HEALTH_CHECK_MAX_FAILURES conn).rcPort = Option.none
    ∧ (∀ c : Connection, c.status = ConnectionStatus.Connected →
        jsTruthyNat c.rcPort = true →
        (healthTickConn c (fun _ => true)).healthCheckFailCount.getD 0 = 0
        ∧ (healthTickConn c (fun _ => true)).status = c.status) := by
  have h1 : healthTickConn conn (fun _ => false)
      = { conn with healthCheckFailCount := Option.some 1 } := by
    rw [failTick_below conn hst hport (by rw [hfc]; decide), hfc]
  have h2 : healthTickConn { conn with healthCheckFailCount := Option.some 1 } (fun _ => false)
      = { conn with healthCheckFailCount := Option.some 2 } := by
    rw [failTick_below { conn with healthCheckFailCount := Option.some 1 } hst hport
      (show (1 : Nat) + 1 < 3 by decide)]
    rfl
  have h3 : healthTickConn { conn with healthCheckFailCount := Option.some 2 } (fun _ => false)
      = { conn with
          status := ConnectionStatus.Disconnected,
          mountedDrive := Option.none, processId := Option.none,
          rcPort := Option.none,
          error := Option.some "Connection lost",
          healthCheckFailCount := Option.some 0 } := by
    rw [failTick_at_threshold { conn with healthCheckFailCount := Option.some 2 } hst hport
      (show (2 : Nat) + 1 ≥ 3 by decide)]
  have e1 : failTicks 1 conn = { conn with healthCheckFailCount := Option.some 1 } := h1
  have e2 : failTicks 2 conn = { conn with healthCheckFailCount := Option.some 2 } := by
    show failTicks 1 (healthTickConn conn (fun _ => false)) = _
    rw [h1]
    exact h2
  have e3 : failTicks HEALTH_CHECK_MAX_FAILURES conn
      = { conn with
          status := ConnectionStatus.Disconnected,
          mountedDrive := Option.none, processId := Option.none,
          rcPort := Option.none,
          error := Option.some "Connection lost",
          healthCheckFailCount := Option.some 0 } := by
    show failTicks 2 (healthTickConn conn (fun _ => false)) = _
    rw [h1]
    show failTicks 1 (healthTickConn _ (fun _ => false)) = _
    rw [h2]
    exact h3
  refine ⟨?_, ?_, ?_, ?_, ?_, ?_, ?_⟩
  · intro k hk
    have hk3 : k < 3 := hk
    interval_cases k
    · exact hst
    · rw [e1]; exact hst
    · rw [e2]; exact hst
  · rw [e3]
  · rw [e3]
  · rw [e3]
  · rw [e3]
  · rw [e3]
  · intro c h1c h2c
    unfold healthTickConn
    rw [if_pos h1c, if_pos h2c]
    unfold healthProbeStep
    simp only [Bool.not_true, Bool.false_eq_true, if_false]
    by_cases hgt : c.healthCheckFailCount.getD 0 > 0
    · rw [if_pos hgt]
      exact ⟨rfl, rfl⟩
    · rw [if_neg hgt]
      exact ⟨by omega, rfl⟩

/-- C2 witness: the sample connected connection survives two failing probes,
is forced to `Disconnected` with "Connection lost" by the third, and a probe
success resets the counter. -/
theorem health_check_threshold_witness :
    (failTicks 2 connLiveA).status = ConnectionStatus.Connected
    ∧ (failTicks 3 connLiveA).status = ConnectionStatus.Disconnected
    ∧ (failTicks 3 connLiveA).error = Option.some "Connection lost"
    ∧ (failTicks 3 connLiveA).mountedDrive = Option.none
    ∧ (healthTickConn connLiveA (fun _ => true)).healthCheckFailCount.getD 0 = 0 := by
  obtain ⟨ha, hb, hc, hd, _, _, hg⟩ :=
    health_check_threshold connLiveA rfl (by decide) (by decide)
  exact ⟨ha 2 (by decide), hb, hc, hd, (hg connLiveA rfl (by decide)).1⟩

/-- Helper: `connectProceed` only appends to the effect trace it is given and
its resulting connection does not depend on that trace. -/
theorem connectProceed_effs_split (c : Connection) (pw : String) (effs : List Effect)
    (env : ConnectEnv) :
    (connectProceed c pw effs env).2 = effs ++ (connectProceed c pw [] env).2
    ∧ (connectProceed c pw effs env).1 = (connectProceed c pw [] env).1 := by
  unfold connectProceed
  split
  · simp
  · split <;> simp

/-- Helper: `connectProceed` never changes `passwordSource`. -/
theorem connectProceed_psrc (c : Connection) (pw : String) (effs : List Effect)
    (env : ConnectEnv) :
    (connectProceed c pw effs env).1.passwordSource = c.passwordSource := by
  unfold connectProceed
  split
  · rfl
  · split <;> rfl

/-- Helper: every effect `connectProceed` appends is a fire or a mount spawn. -/
theorem connectProceed_all_effects (c : Connection) (pw : String) (effs : List Effect)
    (env : ConnectEnv) (P : Effect → Bool) (h : effs.all P = true)
    (hf : ∀ snap, P (Effect.fired snap) = true)
    (hs : ∀ pid port, P (Effect.spawnedMount pid port) = true) :
    (connectProceed c pw effs env).2.all P = true := by
  unfold connectProceed
  split
  · simp [h, hf]
  · split <;> simp [h, hf, hs]

/-- Helper: every effect `connect` emits is a fire, a prompt, a vault store,
or a mount spawn. -/
theorem connect_all_effects (conn : Connection) (env : ConnectEnv) (P : Effect → Bool)
    (hf : ∀ snap, P (Effect.fired snap) = true)
    (hp : ∀ name, P (Effect.prompted name) = true)
    (hv : ∀ name pw, P (Effect.storedVaultPassword name pw) = true)
    (hs : ∀ pid port, P (Effect.spawnedMount pid port) = true) :
    (connect conn env).2.all P = true := by
  simp only [connect]
  split
  · simp
  · split
    · apply connectProceed_all_effects
      · simp [hf]
      · exact hf
      · exact hs
    · split
      · apply connectProceed_all_effects
        · simp [hf, hp, hv]
        · exact hf
        · exact hs
      · simp [hf, hp]

/-- C3 (amended).  `connect` on an already-`Connected` entry is a no-op (state
unchanged, no effect, no process spawned); but `connect` on an entry in
status `Connecting` is NOT rejected: it re-enters the `Connecting` transition
(the first emitted effect is the change notification with the `Connecting`
snapshot) and proceeds with a fresh attempt. -/
theorem connect_guard_connected_only :
    (∀ (conn : Connection) (env : ConnectEnv),
        conn.status = ConnectionStatus.Connected → connect conn env = (conn, []))
    ∧ (∀ (conn : Connection) (env : ConnectEnv),
        conn.status = ConnectionStatus.Connecting →
        (connect conn env).2.head? = Option.some (Effect.fired
          { conn with status := ConnectionStatus.Connecting, error := Option.none })) := by
  constructor
  · intro conn env h
    simp [connect, h]
  · intro conn env h
    have hne : ¬(conn.status = ConnectionStatus.Connected) := by simp [h]
    simp only [connect, if_neg hne]
    split
    · rw [(connectProceed_effs_split _ _ _ _).1]
      simp
    · split
      · rw [(connectProceed_effs_split _ _ _ _).1]
        simp
      · simp

/-- C3 witness: `connect` on the connected sample is the identity with no
effects, while `connect` on the in-flight sample starts with a `Connecting`
notification instead of being rejected. -/
theorem connect_guard_connected_only_witness :
    connect connLiveA envOk = (connLiveA, [])
    ∧ (connect connConnectingA envOk).2.head? = Option.some (Effect.fired
        { connConnectingA with status := ConnectionStatus.Connecting, error := Option.none }) := by
  exact ⟨connect_guard_connected_only.1 connLiveA envOk rfl,
    connect_guard_connected_only.2 connConnectingA envOk rfl⟩

/-- C5.  Credential resolution precedence: (a) a truthy password embedded in
the workspace JSON file wins for a workspace-scoped connection, without
consulting the vault (the result is independent of the vault entry and
`updatePasswordSource` resolves to `workspace`); (b) otherwise the
SecretStorage (vault) entry is used; (c) otherwise `connect` prompts,
persists the entered password into the vault — never into the workspace
file — and sets `passwordSource` to `secret`. -/
theorem credential_precedence :
    (∀ (sc : ConnectionScope) (env : ConnectEnv) (v : Option String),
        sc = ConnectionScope.workspace → jsTruthyStr env.filePassword = true →
        getPasswordFor sc env = env.filePassword
        ∧ getPasswordFor sc { env with vaultPassword := v } = env.filePassword)
    ∧ (∀ (sc : ConnectionScope) (env : ConnectEnv),
        ¬(sc = ConnectionScope.workspace ∧ jsTruthyStr env.filePassword = true) →
        getPasswordFor sc env = env.vaultPassword)
    ∧ (∀ (conn : Connection) (env : ConnectEnv),
        conn.status ≠ ConnectionStatus.Connected →
        jsTruthyStr (getPasswordFor conn.scope env) = false →
        jsTruthyStr env.promptResult = true →
        Effect.storedVaultPassword conn.config.name (env.promptResult.getD "")
            ∈ (connect conn env).2
        ∧ (connect conn env).1.passwordSource = PasswordSource.secret)
    ∧ (∀ (conn : Connection) (env : ConnectEnv),
        (connect conn env).2.all (fun e => !(Effect.isWorkspaceWrite e)) = true)
    ∧ (∀ (conn : Connection) (fileHas : Bool) (v1 v2 : Option String),
        conn.scope = ConnectionScope.workspace → fileHas = true →
        updatePasswordSource conn fileHas v1
          = { conn with passwordSource := PasswordSource.workspace }
        ∧ updatePasswordSource conn fileHas v1 = updatePasswordSource conn fileHas v2) := by
  refine ⟨?_, ?_, ?_, ?_, ?_⟩
  · intro sc env v hsc hfp
    subst hsc
    constructor
    · simp [getPasswordFor, hfp]
    · simp [getPasswordFor, hfp]
  · intro sc env h
    simp only [getPasswordFor]
    rw [if_neg h]
  · intro conn env hne hpw hprompt
    simp only [connect, if_neg hne]
    rw [if_neg (by simpa using hpw), if_pos hprompt]
    constructor
    · rw [(connectProceed_effs_split _ _ _ _).1]
      simp
    · rw [connectProceed_psrc]
  · intro conn env
    apply connect_all_effects
    · intro snap; rfl
    · intro name; rfl
    · intro name pw; rfl
    · intro pid port; rfl
  · intro conn fileHas v1 v2 hsc hfh
    subst hfh
    constructor
    · simp [updatePasswordSource, hsc]
    · simp [updatePasswordSource, hsc]

/-- C5 witness: with a password embedded in the workspace file the resolver
returns it; with no stored password anywhere, connecting the workspace-scoped
sample prompts and persists "typed" into the vault; and a workspace-scoped
connection with a file password resolves source `workspace`. -/
theorem credential_precedence_witness :
    getPasswordFor ConnectionScope.workspace envFileP = Option.some "x"
    ∧ Effect.storedVaultPassword "A" "typed" ∈ (connect connWsDisc envPrompt).2
    ∧ (connect connWsDisc envPrompt).1.passwordSource = PasswordSource.secret
    ∧ updatePasswordSource connWsDisc true (Option.some "whatever")
        = { connWsDisc with passwordSource := PasswordSource.workspace } := by
  have h := credential_precedence
  have h1 := (h.1 ConnectionScope.workspace envFileP Option.none rfl (by decide)).1
  have h3 := h.2.2.1 connWsDisc envPrompt (by decide) (by decide) (by decide)
  have h5 := (h.2.2.2.2 connWsDisc true (Option.some "whatever") Option.none rfl rfl).1
  exact ⟨h1, h3.1, h3.2, h5⟩

/-- C7 (amended).  When mount-readiness polling times out, the connection
transitions to `Error` with message "Mount timed out" after the backend
process was spawned, but the spawned process is NOT killed: `connect` never
emits an unmount call for any input. -/
theorem mount_timeout_error_no_kill :
    (∀ (conn : Connection) (env : ConnectEnv),
        conn.status ≠ ConnectionStatus.Connected →
        jsTruthyStr (getPasswordFor conn.scope env) = true →
        (allocateDrive conn.config.driveLetter env.driveExists).isSome = true →
        env.mountReady = false →
        (connect conn env).1.status = ConnectionStatus.Error
        ∧ (connect conn env).1.error = Option.some "Mount timed out"
        ∧ Effect.spawnedMount env.spawnPid env.spawnRcPort ∈ (connect conn env).2)
    ∧ (∀ (conn : Connection) (env : ConnectEnv),
        (connect conn env).2.all (fun e => !(Effect.isUnmount e)) = true) := by
  constructor
  · intro conn env hne hpw hdrive hmr
    simp only [connect, if_neg hne]
    rw [if_pos (by simpa using hpw)]
    obtain ⟨letter, hl⟩ := Option.isSome_iff_exists.mp hdrive
    simp only [connectProceed, hl, hmr]
    refine ⟨rfl, rfl, ?_⟩
    simp
  · intro conn env
    apply connect_all_effects
    · intro snap; rfl
    · intro name; rfl
    · intro name pw; rfl
    · intro pid port; rfl

/-- C7 witness: the timing-out sample environment leaves status `Error` with
"Mount timed out", a spawned process in the trace, and no unmount call. -/
theorem mount_timeout_error_no_kill_witness :
    (connect connDiscA envTimeout).1.status = ConnectionStatus.Error
    ∧ (connect connDiscA envTimeout).1.error = Option.some "Mount timed out"
    ∧ Effect.spawnedMount 7 5597 ∈ (connect connDiscA envTimeout).2
    ∧ (connect connDiscA envTimeout).2.all (fun e => !(Effect.isUnmount e)) = true := by
  have h1 := mount_timeout_error_no_kill.1 connDiscA envTimeout (by decide) (by decide)
    (by decide) rfl
  exact ⟨h1.1, h1.2.1, h1.2.2, mount_timeout_error_no_kill.2 connDiscA envTimeout⟩

/-- C9 (amended).  A successful `disconnect` of a `Connected` entry sets
status `Disconnected` and clears `mountedDrive` and `processId` — but not
`rcPort`, which keeps its previous value — and the final change notification
carries the already-mutated snapshot. -/
theorem disconnect_clears_fields_keeps_rcport (conn : Connection)
    (h : conn.status = ConnectionStatus.Connected) :
    (disconnect conn Option.none).1.status = ConnectionStatus.Disconnected
    ∧ (disconnect conn Option.none).1.mountedDrive = Option.none
    ∧ (disconnect conn Option.none).1.processId = Option.none
    ∧ (disconnect conn Option.none).1.rcPort = conn.rcPort
    ∧ (disconnect conn Option.none).2.getLast? = Option.some (Effect.fired
        { conn with status := ConnectionStatus.Disconnected,
                    mountedDrive := Option.none, processId := Option.none }) := by
  simp only [disconnect, if_neg (by simp [h] : ¬(conn.status ≠ ConnectionStatus.Connected))]
  by_cases hmd : jsTruthyStr conn.mountedDrive <;>
    by_cases hpid : jsTruthyNat conn.processId <;>
      simp [hmd, hpid]

/-- C9 witness: disconnecting the connected sample clears drive and process
but leaves its control port 5597 in place. -/
theorem disconnect_clears_fields_keeps_rcport_witness :
    (disconnect connLiveA Option.none).1.status = ConnectionStatus.Disconnected
    ∧ (disconnect connLiveA Option.none).1.mountedDrive = Option.none
    ∧ (disconnect connLiveA Option.none).1.rcPort = Option.some 5597 := by
  have h := disconnect_clears_fields_keeps_rcport connLiveA rfl
  exact ⟨h.1, h.2.1, h.2.2.2.1.trans rfl⟩

/-- Helper: the removal filter leaves no config with the removed name. -/
theorem storeHas_removeFromStore (l : List ConnectionConfig) (name : String) :
    storeHas (removeFromStore l name) name = false := by
  rw [Bool.eq_false_iff]
  intro hh
  rw [storeHas, List.any_eq_true] at hh
  obtain ⟨c, hc, hcn⟩ := hh
  rw [removeFromStore] at hc
  obtain ⟨-, hneg⟩ := List.mem_filter.mp hc
  simp only [beq_iff_eq] at hcn
  simp [hcn] at hneg

/-- Helper: the replace-or-push save leaves a config with the saved name. -/
theorem storeHas_replaceFirstOrAppend (l : List ConnectionConfig) (name : String)
    (cfg : ConnectionConfig) (h : cfg.name = name) :
    storeHas (replaceFirstOrAppend l name cfg) name = true := by
  induction l with
  | nil => simp [replaceFirstOrAppend, storeHas, h]
  | cons c rest ih =>
      by_cases hc : c.name = name
      · simp [replaceFirstOrAppend, storeHas, hc, h]
      · rw [replaceFirstOrAppend, if_neg (by simpa using hc), storeHas, List.any_cons]
        rw [storeHas] at ih
        simp [ih]

/-- C1 (corrected/amended).  For a scope change, `updateConnection` issues the
removal from the old backend FIRST and the write to the new backend second:
the trace has three store states; at the intermediate state the config is in
neither backend (given it was not already in the target backend), and at the
final state it is present in the new backend and absent from the old one. -/
theorem scope_move_delete_before_write (s : Stores) (oldName : String)
    (oldScope ns : ConnectionScope) (cfg : ConnectionConfig)
    (hscope : ns ≠ oldScope) (hname : cfg.name = oldName)
    (hnotnew : backendHas s ns oldName = false) :
    (updateConnectionStores s oldName oldScope cfg (Option.some ns)).length = 3
    ∧ backendHasAt (updateConnectionStores s oldName oldScope cfg (Option.some ns)) 1
        oldScope oldName = Option.some false
    ∧ backendHasAt (updateConnectionStores s oldName oldScope cfg (Option.some ns)) 1
        ns oldName = Option.some false
    ∧ backendHasAt (updateConnectionStores s oldName oldScope cfg (Option.some ns)) 2
        ns oldName = Option.some true
    ∧ backendHasAt (updateConnectionStores s oldName oldScope cfg (Option.some ns)) 2
        oldScope oldName = Option.some false := by
  have hstrip : (stripPassword cfg).name = oldName := hname
  cases oldScope <;> cases ns
  · exact absurd rfl hscope
  · simp only [backendHas] at hnotnew
    simp [updateConnectionStores, backendHasAt, backendHas, hscope,
      storeHas_removeFromStore, hnotnew, storeHas_replaceFirstOrAppend _ _ _ hstrip]
  · simp only [backendHas] at hnotnew
    simp [updateConnectionStores, backendHasAt, backendHas, hscope,
      storeHas_removeFromStore, hnotnew, storeHas_replaceFirstOrAppend _ _ _ hstrip]
  · exact absurd rfl hscope

/-- C1 witness: moving A from the workspace backend to the global backend
leaves A absent from both backends at the intermediate trace state, and only
in the global backend at the end. -/
theorem scope_move_delete_before_write_witness :
    backendHasAt (updateConnectionStores storesW "A" ConnectionScope.workspace cfgA
      (Option.some ConnectionScope.global)) 1 ConnectionScope.workspace "A"
      = Option.some false
    ∧ backendHasAt (updateConnectionStores storesW "A" ConnectionScope.workspace cfgA
        (Option.some ConnectionScope.global)) 1 ConnectionScope.global "A"
      = Option.some false
    ∧ backendHasAt (updateConnectionStores storesW "A" ConnectionScope.workspace cfgA
        (Option.some ConnectionScope.global)) 2 ConnectionScope.global "A"
      = Option.some true := by
  have h := scope_move_delete_before_write storesW "A" ConnectionScope.workspace
    ConnectionScope.global cfgA (by decide) rfl (by decide)
  exact ⟨h.2.1, h.2.2.1, h.2.2.2.1⟩

/-- Helper: a successful `find?` splits the list at the first hit. -/
theorem find?_eq_some_split {α : Type} (p : α → Bool) :
    ∀ (l : List α) (a : α), l.find? p = Option.some a →
      ∃ pre post, l = pre ++ a :: post ∧ p a = true ∧ ∀ b ∈ pre, p b = false := by
  intro l
  induction l with
  | nil => intro a h; simp [List.find?] at h
  | cons x xs ih =>
      intro a h
      by_cases hx : p x
      · rw [List.find?_cons_of_pos _ hx] at h
        obtain rfl : x = a := by simpa using h
        exact ⟨[], xs, rfl, hx, by simp⟩
      · rw [List.find?_cons_of_neg _ hx] at h
        obtain ⟨pre, post, heq, hpa, hpre⟩ := ih a h
        refine ⟨x :: pre, post, by simp [heq], hpa, ?_⟩
        intro b hb
        rcases List.mem_cons.mp hb with rfl | hb2
        · simpa using hx
        · exact hpre b hb2

/-- C4 (corrected/amended).  Drive allocation: a truthy pinned letter is used
as-is, WITHOUT verifying it is free; otherwise the fixed 24-letter pool
(Z down to C, excluding A and B, strictly descending) is scanned in order and
the first letter whose drive path does not exist on the host is picked (one
host existence check covers both letters mounted by this process and other
host mounts); when no pinned letter is set and every pool letter exists,
`connect` fails with error "No available drive letters". -/
theorem drive_allocation_spec :
    (∀ (pin : Option String) (ex : String → Bool),
        jsTruthyStr pin = true → allocateDrive pin ex = pin)
    ∧ (∀ (pin : Option String) (ex : String → Bool),
        jsTruthyStr pin = false → allocateDrive pin ex = findAvailableDrive ex)
    ∧ DRIVE_LETTERS.length = 24
    ∧ 'A' ∉ DRIVE_LETTERS
    ∧ 'B' ∉ DRIVE_LETTERS
    ∧ DRIVE_LETTERS = ['Z', 'Y', 'X', 'W', 'V', 'U', 'T', 'S', 'R', 'Q', 'P', 'O',
        'N', 'M', 'L', 'K', 'J', 'I', 'H', 'G', 'F', 'E', 'D', 'C']
    ∧ (∀ (ex : String → Bool) (s : String), findAvailableDrive ex = Option.some s →
        ∃ pre c post, DRIVE_LETTERS = pre ++ c :: post
          ∧ s = c.toString
          ∧ ex (drivePathOf c) = false
          ∧ ∀ b ∈ pre, ex (drivePathOf b) = true)
    ∧ (∀ ex : String → Bool, (findAvailableDrive ex = Option.none ↔
        ∀ c ∈ DRIVE_LETTERS, ex (drivePathOf c) = true))
    ∧ (∀ (conn : Connection) (env : ConnectEnv),
        conn.status ≠ ConnectionStatus.Connected →
        jsTruthyStr (getPasswordFor conn.scope env) = true →
        jsTruthyStr conn.config.driveLetter = false →
        findAvailableDrive env.driveExists = Option.none →
        (connect conn env).1.status = ConnectionStatus.Error
        ∧ (connect conn env).1.error = Option.some "No available drive letters") := by
  refine ⟨?_, ?_, by decide, by decide, by decide, by decide, ?_, ?_, ?_⟩
  · intro pin ex h
    simp [allocateDrive, h]
  · intro pin ex h
    simp [allocateDrive, h]
  · intro ex s hs
    rw [findAvailableDrive] at hs
    obtain ⟨c, hc, rfl⟩ := Option.map_eq_some'.mp hs
    obtain ⟨pre, post, heq, hpa, hpre⟩ := find?_eq_some_split _ DRIVE_LETTERS c hc
    refine ⟨pre, c, post, heq, rfl, by simpa using hpa, ?_⟩
    intro b hb
    simpa using hpre b hb
  · intro ex
    rw [findAvailableDrive, Option.map_eq_none', List.find?_eq_none]
    constructor
    · intro h c hc
      simpa using h c hc
    · intro h c hc
      simpa using h c hc
  · intro conn env hne hpw hpin hnone
    simp only [connect, if_neg hne]
    rw [if_pos (by simpa using hpw)]
    simp only [connectProceed, allocateDrive, hpin, Bool.false_eq_true, if_false, hnone]
    simp

/-- C4 witness: with a free pool the pinned Z is used; with a fully occupied
pool and no pinned letter the connect attempt errors out resource-exhausted. -/
theorem drive_allocation_spec_witness :
    allocateDrive (Option.some "Z") (fun _ => false) = Option.some "Z"
    ∧ (connect connDiscA envAllBusy).1.status = ConnectionStatus.Error
    ∧ (connect connDiscA envAllBusy).1.error = Option.some "No available drive letters" := by
  have h1 := drive_allocation_spec.1 (Option.some "Z") (fun _ => false) (by decide)
  have h2 := drive_allocation_spec.2.2.2.2.2.2.2.2 connDiscA envAllBusy (by decide)
    (by decide) (by decide) (by decide)
  exact ⟨h1, h2.1, h2.2⟩

end SftpPlus
